import Mathlib

/-
  Verification development for the guacamole-export repository.

  Two scripts are modelled by a shallow embedding:
  - rdm_to_guac_json.py : converts an RDM XML export into a list of
    Guacamole-style connection records (function convert_rdm_to_guac_json
    plus the __main__ command-line driver);
  - guacamole-export.py : folds rows of a SQL export query into connection
    records (build_connection_dict) and drives the export (main), with the
    session/cursor lifecycle modelled by an exception-state monad.

  Python runtime errors that the scripts can actually raise on the modelled
  paths (NameError from an unbound local, AttributeError from None.isdigit())
  are modelled with an explicit error type; every Python function that can
  raise is embedded as a function into Except PyError.
-/

namespace GuacExport

/-- Python runtime exceptions reachable in convert_rdm_to_guac_json:
NameError (UnboundLocalError) from the unbound local guac_connection, and
AttributeError from calling .isdigit() on None. -/
inductive PyError where
  | nameError
  | attributeError
  deriving DecidableEq, Repr

/-- An ElementTree element as far as the converter observes it: its .text
attribute (None or a string) and its number of child elements (Python's
bool(element) is len(element) != 0, which the code exercises with
rdp_section.find('Host') or conn_element.find('Url')). -/
structure ElemNode where
  text : Option String := none
  childCount : Nat := 0
  deriving DecidableEq, Repr

/-- Sub-elements of the Terminal section read by the SSHShell branch. -/
structure TerminalSection where
  host : Option ElemNode := none
  hostPort : Option ElemNode := none
  username : Option ElemNode := none
  safePassword : Option ElemNode := none
  remoteCommand : Option ElemNode := none
  deriving DecidableEq, Repr

/-- Sub-elements of the RDP section read by the RDP/RDPConfigured branch. -/
structure RDPSection where
  host : Option ElemNode := none
  port : Option ElemNode := none
  userName : Option ElemNode := none
  safePassword : Option ElemNode := none
  domain : Option ElemNode := none
  screenSizingMode : Option ElemNode := none
  deriving DecidableEq, Repr

/-- Sub-elements of the VNC section read by the VNC branch. -/
structure VNCSection where
  host : Option ElemNode := none
  port : Option ElemNode := none
  msSafePassword : Option ElemNode := none
  msUser : Option ElemNode := none
  deriving DecidableEq, Repr

/-- One Connection element of the RDM XML document, with the sub-elements the
converter looks up by tag name (absent tag = none). -/
structure RDMConnection where
  connectionType : Option ElemNode := none
  name : Option ElemNode := none
  group : Option ElemNode := none
  url : Option ElemNode := none
  terminal : Option TerminalSection := none
  rdp : Option RDPSection := none
  vnc : Option VNCSection := none
  deriving DecidableEq, Repr

/-- A JSON scalar value as it appears inside the emitted parameters map:
a string, an int (the port), or null (a present element whose text is None). -/
inductive JValue where
  | s : String → JValue
  | n : Nat → JValue
  | null : JValue
  deriving DecidableEq, Repr

/-- A Guacamole connection record as built by the converter; name is an
Option String because name_elem.text can be Python None (JSON null). -/
structure GuacConn where
  name : Option String
  protocol : String
  parameters : List (String × JValue)
  group : Option String := none
  deriving DecidableEq, Repr

/-- Python: x.text if x is not None else '' (the result may still be None when
the element is present but empty). -/
def textOrEmpty (e : Option ElemNode) : Option String :=
  match e with
  | some el => el.text
  | none => some ""

/-- Python str() of a value that is either a string or None (f-string
interpolation renders None as the text None). -/
def pyStr (v : Option String) : String :=
  match v with
  | some s => s
  | none => "None"

/-- Python truthiness of a string-or-None value: None and the empty string
are falsy. -/
def pyTruthy (v : Option String) : Bool :=
  match v with
  | some s => s ≠ ""
  | none => false

/-- Python str.isdigit for ASCII content: nonempty and all characters are
decimal digits. -/
def pyIsdigit (s : String) : Bool :=
  s ≠ "" && s.data.all Char.isDigit

/-- Python int() applied to an all-digit decimal string. -/
def decimalValue (s : String) : Nat :=
  s.data.foldl (fun n c => n * 10 + (c.toNat - 48)) 0

/-- Python str.replace with a single-character pattern and single-character
replacement, as in rdm_group_path.replace(backslash, slash): substitute
character-wise. -/
def pyReplaceChar (s : String) (a b : Char) : String :=
  String.mk (s.data.map (fun c => if c = a then b else c))

/-- The port extraction shared by all three branches:
int(port_elem.text) if port_elem is not None and port_elem.text.isdigit()
else default. When the element is present but its text is None, the
.isdigit() call raises AttributeError. -/
def extractPort (port_elem : Option ElemNode) (defaultPort : Nat) : Except PyError Nat :=
  match port_elem with
  | none => .ok defaultPort
  | some el =>
    match el.text with
    | none => .error .attributeError
    | some t => .ok (if pyIsdigit t then decimalValue t else defaultPort)

/-- JSON value of a string-or-None Python value. -/
def jStr (v : Option String) : JValue :=
  match v with
  | some s => .s s
  | none => .null

/-- rdm_group_path = group_elem.text if group_elem is not None else ''. -/
def rdm_group_path (conn_element : RDMConnection) : Option String :=
  match conn_element.group with
  | some group_elem => group_elem.text
  | none => some ""

/-- The group attribute of the emitted record: set only when rdm_group_path
is truthy, to ROOT/ prepended to the path with backslashes replaced by
forward slashes. -/
def guacGroupField (conn_element : RDMConnection) : Option String :=
  let g := rdm_group_path conn_element
  if pyTruthy g then some ("ROOT/" ++ pyReplaceChar (pyStr g) '\\' '/') else none

/-- The SSHShell branch body (executed when the Terminal section is present):
builds the guac_connection dict and sets the local protocol to SSH. -/
def buildSSH (conn_element : RDMConnection) (terminal : TerminalSection) :
    Except PyError (GuacConn × String) := do
  let host := textOrEmpty terminal.host
  let port ← extractPort terminal.hostPort 22
  let username := textOrEmpty terminal.username
  let _password := textOrEmpty terminal.safePassword
  let command := textOrEmpty terminal.remoteCommand
  let name : Option String :=
    match conn_element.name with
    | some name_elem => name_elem.text
    | none => some ("SSH_" ++ pyStr host ++ ":" ++ toString port)
  let conn : GuacConn :=
    { name := name
      protocol := "ssh"
      parameters :=
        [("hostname", jStr host),
         ("port", .n port),
         ("username", jStr username),
         ("remote-app", .s (if pyTruthy command then pyStr command else "")),
         ("command", .s (if pyTruthy command then pyStr command else ""))]
      group := guacGroupField conn_element }
  pure (conn, "SSH")

/-- The RDP/RDPConfigured branch body (executed when the RDP section is
present). The expression rdp_section.find('Host') or conn_element.find('Url')
uses Python element truthiness: an element with no children is falsy. -/
def buildRDP (conn_element : RDMConnection) (rdp_section : RDPSection) :
    Except PyError (GuacConn × String) := do
  let host_elem : Option ElemNode :=
    match rdp_section.host with
    | some el => if el.childCount ≠ 0 then some el else conn_element.url
    | none => conn_element.url
  let host := textOrEmpty host_elem
  let port ← extractPort rdp_section.port 3389
  let username := textOrEmpty rdp_section.userName
  let _password := textOrEmpty rdp_section.safePassword
  let domain := textOrEmpty rdp_section.domain
  let screen_mode := textOrEmpty rdp_section.screenSizingMode
  let name : Option String :=
    match conn_element.name with
    | some name_elem => name_elem.text
    | none => some ("RDP_" ++ pyStr host ++ ":" ++ toString port)
  let guac_params : List (String × JValue) :=
    [("hostname", jStr host),
     ("port", .n port),
     ("username", jStr username)]
  let guac_params :=
    if pyTruthy domain then guac_params ++ [("domain", .s (pyStr domain))] else guac_params
  let guac_params :=
    if screen_mode = some "FitToWindow" then guac_params ++ [("resize-method", .s "scale")]
    else if screen_mode = some "FullScreen" then guac_params ++ [("resize-method", .s "none")]
    else guac_params
  let conn : GuacConn :=
    { name := name
      protocol := "rdp"
      parameters := guac_params
      group := guacGroupField conn_element }
  pure (conn, "RDP")

/-- The VNC branch body (executed when the VNC section is present). -/
def buildVNC (conn_element : RDMConnection) (vnc_section : VNCSection) :
    Except PyError (GuacConn × String) := do
  let host := textOrEmpty vnc_section.host
  let port ← extractPort vnc_section.port 5900
  let _password := textOrEmpty vnc_section.msSafePassword
  let username := textOrEmpty vnc_section.msUser
  let name : Option String :=
    match conn_element.name with
    | some name_elem => name_elem.text
    | none => some ("VNC_" ++ pyStr host ++ ":" ++ toString port)
  let guac_params : List (String × JValue) :=
    [("hostname", jStr host),
     ("port", .n port)]
  let guac_params :=
    if pyTruthy username then guac_params ++ [("username", .s (pyStr username))] else guac_params
  let conn : GuacConn :=
    { name := name
      protocol := "vnc"
      parameters := guac_params
      group := guacGroupField conn_element }
  pure (conn, "VNC")

/-- The candidate produced by one pass of the name-uniqueness while loop with
counter value k: original (PROTOCOL) for k = 1, and original (PROTOCOL)_k for
k greater than 1 (f-strings render a None name as the text None). -/
def candidateName (original_name : Option String) (protocol : String) (counter : Nat) :
    Option String :=
  let base := pyStr original_name ++ " (" ++ protocol ++ ")"
  if counter > 1 then some (base ++ "_" ++ toString counter) else some base

/-- The body of the while loop: keep proposing candidates while the candidate
is in used_names. Fuel bounds the iteration count; candidates for distinct
counters are distinct, so fuel used_names.length + 1 always suffices. -/
def uniquifyLoop (used : List (Option String)) (original_name : Option String)
    (protocol : String) : Nat → Nat → Option String
  | 0, counter => candidateName original_name protocol counter
  | fuel + 1, counter =>
    let c := candidateName original_name protocol counter
    if c ∈ used then uniquifyLoop used original_name protocol fuel (counter + 1) else c

/-- The full name-uniqueness check: unique_name starts as the original name
and the while loop runs only if it is already in used_names. -/
def uniqueName (used : List (Option String)) (original_name : Option String)
    (protocol : String) : Option String :=
  if original_name ∈ used then uniquifyLoop used original_name protocol (used.length + 1) 1
  else original_name

/-- Add a name to the used_names set (list model of the Python set). -/
def addUsedName (used : List (Option String)) (n : Option String) : List (Option String) :=
  if n ∈ used then used else used ++ [n]

/-- Loop state of convert_rdm_to_guac_json: the accumulated connections list
and used_names set, plus the Python locals guac_connection and protocol,
which persist across iterations (none models an unbound local). tailAlias is
the number of trailing entries of connections that are the same Python dict
object as guac_connection (renaming that object mutates them all). -/
structure ConvState where
  connections : List GuacConn := []
  used_names : List (Option String) := []
  guac_connection : Option GuacConn := none
  protocol : Option String := none
  tailAlias : Nat := 0
  deriving DecidableEq, Repr

/-- The name-uniqueness check and append for a connection freshly built by
one of the three branch bodies. -/
def finalizeConnection (st : ConvState) (c : GuacConn) (proto : String) : ConvState :=
  let unique := uniqueName st.used_names c.name proto
  let c' := { c with name := unique }
  { connections := st.connections ++ [c'],
    used_names := addUsedName st.used_names unique,
    guac_connection := some c',
    protocol := some proto,
    tailAlias := 1 }

/-- The fall-through path: a recognized ConnectionType whose section element
is missing skips the branch body but still reaches the name-uniqueness block,
which reads the stale locals guac_connection and protocol. If they were never
assigned, Python raises NameError (UnboundLocalError). Otherwise the stale
dict object is renamed (mutating every aliased occurrence already in the
list) and appended again. -/
def staleFinalize (st : ConvState) : Except PyError ConvState :=
  match st.guac_connection, st.protocol with
  | some obj, some proto =>
    let unique := uniqueName st.used_names obj.name proto
    let obj' := { obj with name := unique }
    let n := st.connections.length
    .ok { connections :=
            st.connections.take (n - st.tailAlias) ++
              List.replicate st.tailAlias obj' ++ [obj'],
          used_names := addUsedName st.used_names unique,
          guac_connection := some obj',
          protocol := some proto,
          tailAlias := st.tailAlias + 1 }
  | _, _ => .error .nameError

/-- One iteration of the for loop over Connection elements. -/
def processConnection (st : ConvState) (conn_element : RDMConnection) :
    Except PyError ConvState :=
  match conn_element.connectionType with
  | none => .ok st
  | some conn_type_elem =>
    let conn_type := conn_type_elem.text
    if conn_type = some "SSHShell" then
      match conn_element.terminal with
      | some terminal => do
        let (c, proto) ← buildSSH conn_element terminal
        pure (finalizeConnection st c proto)
      | none => staleFinalize st
    else if conn_type = some "RDP" ∨ conn_type = some "RDPConfigured" then
      match conn_element.rdp with
      | some rdp_section => do
        let (c, proto) ← buildRDP conn_element rdp_section
        pure (finalizeConnection st c proto)
      | none => staleFinalize st
    else if conn_type = some "VNC" then
      match conn_element.vnc with
      | some vnc_section => do
        let (c, proto) ← buildVNC conn_element vnc_section
        pure (finalizeConnection st c proto)
      | none => staleFinalize st
    else .ok st

/-- The loop of convert_rdm_to_guac_json over all Connection elements of the
document, returning the accumulated connections list. -/
def convertConnections (doc : List RDMConnection) : Except PyError (List GuacConn) := do
  let st ← doc.foldlM processConnection {}
  pure st.connections

/-- Outcome of parsing the input file (ET.parse): success, an ET.ParseError,
or any other exception while reading. -/
inductive ParseOutcome where
  | parsed : List RDMConnection → ParseOutcome
  | parseFailed : String → ParseOutcome
  | readFailed : String → ParseOutcome
  deriving DecidableEq, Repr

/-- The error string returned when the input path does not exist. -/
def fileNotFoundMessage (path : String) : String :=
  "Error: File not found: " ++ path

/-- The error string returned when ET.parse raises ET.ParseError. -/
def parseErrorMessage (msg : String) : String :=
  "Error parsing XML file: " ++ msg

/-- The error string returned when reading raises any other exception. -/
def readErrorMessage (msg : String) : String :=
  "Error reading file: " ++ msg

/-- The string returned by convert_rdm_to_guac_json: an error message, the
json.dumps of the connections list, or the no-supported-connections
message. -/
inductive ConvReturn where
  | errMsg : String → ConvReturn
  | jsonDump : List GuacConn → ConvReturn
  | noSupportedMsg : ConvReturn
  deriving DecidableEq, Repr

/-- convert_rdm_to_guac_json: checks os.path.exists, then parses, then runs
the conversion loop; error strings are returned (an .ok value), while Python
runtime errors raised by the loop propagate (.error). -/
def convert_rdm_to_guac_json (pathExists : Bool) (xml_file_path : String)
    (parse : ParseOutcome) : Except PyError ConvReturn :=
  if !pathExists then .ok (.errMsg (fileNotFoundMessage xml_file_path))
  else
    match parse with
    | .parseFailed e => .ok (.errMsg (parseErrorMessage e))
    | .readFailed e => .ok (.errMsg (readErrorMessage e))
    | .parsed doc => do
      let connections ← convertConnections doc
      if connections.isEmpty then pure .noSupportedMsg
      else pure (.jsonDump connections)

/-- What the __main__ block prints: the usage message, or the string returned
by convert_rdm_to_guac_json. -/
inductive CLIOutput where
  | usageMsg : CLIOutput
  | printed : ConvReturn → CLIOutput
  deriving DecidableEq, Repr

/-- The __main__ block: argcount models len(sys.argv). Exit status 1 only on
the usage error; every path that prints the conversion result (including the
error strings) falls off the end of the script with exit status 0. -/
def rdmMain (argcount : Nat) (path : String) (pathExists : Bool)
    (parse : ParseOutcome) : Except PyError (Nat × CLIOutput) :=
  if argcount ≠ 2 then .ok (1, .usageMsg)
  else do
    let result_json ← convert_rdm_to_guac_json pathExists path parse
    pure (0, .printed result_json)

/-
  Model of guacamole-export.py.
-/

/-- One row of the export query, named after the selected columns in order:
connection_id, connection_name, the group path expression
ROOT/ || COALESCE(full_path, '') (third column), protocol (fourth column),
parameter_name, parameter_value. The two parameter columns come from a LEFT
JOIN and can be null. -/
structure DBRow where
  connection_id : Int
  connection_name : String
  group_path : String
  protocol : String
  parameter_name : Option String
  parameter_value : Option String
  deriving DecidableEq, Repr

/-- A connection record as built by build_connection_dict. -/
structure GuacRecord where
  name : String
  protocol : String
  group : String
  parameters : List (String × Option String)
  deriving DecidableEq, Repr

/-- Python dict insertion into the parameters dict: overwrite in place if the
key exists, else append. -/
def insertParamValue (ps : List (String × Option String)) (k : String) (v : Option String) :
    List (String × Option String) :=
  if ps.any (fun p => decide (p.1 = k)) then
    ps.map (fun p => if p.1 = k then (k, v) else p)
  else ps ++ [(k, v)]

/-- The parameter insertion of one row into the entry of its connection id:
connections_map[conn_id]["parameters"][param_name] = param_value. -/
def updateParams (conn_id : Int) (param_name : String) (param_value : Option String)
    (p : Int × GuacRecord) : Int × GuacRecord :=
  if p.1 = conn_id then
    (p.1, { p.2 with parameters := insertParamValue p.2.parameters param_name param_value })
  else p

/-- One iteration of the loop in build_connection_dict. The tuple unpack
conn_id, name, parent_id, group_name, param_name, param_value = row binds the
third selected column (the group path) to the variable parent_id and the
fourth (the protocol) to the variable group_name; the record is then built as
name: name, protocol: group_name, group: parent_id. -/
def processRow (connections_map : List (Int × GuacRecord)) (row : DBRow) :
    List (Int × GuacRecord) :=
  let conn_id := row.connection_id
  let name := row.connection_name
  let parent_id := row.group_path
  let group_name := row.protocol
  let m :=
    if connections_map.any (fun p => decide (p.1 = conn_id)) then connections_map
    else
      connections_map ++
        [(conn_id, { name := name, protocol := group_name, group := parent_id, parameters := [] })]
  match row.parameter_name with
  | some param_name => m.map (updateParams conn_id param_name row.parameter_value)
  | none => m

/-- build_connection_dict: fold the rows into the insertion-ordered
connections_map and return the list of its values. -/
def build_connection_dict (rows : List DBRow) : List GuacRecord :=
  (rows.foldl processRow []).map Prod.snd

/-- Dict lookup in the connections_map model. -/
def lookupConn : List (Int × GuacRecord) → Int → Option GuacRecord
  | [], _ => none
  | p :: m, i => if p.1 = i then some p.2 else lookupConn m i

/-- The key list of the connections_map model. -/
def keysOf (m : List (Int × GuacRecord)) : List Int :=
  m.map Prod.fst

/-
  Control-flow model of main in guacamole-export.py, for the session
  lifecycle. Python exceptions relevant here: psycopg2.Error from the query,
  IOError from the file write, and SystemExit raised by sys.exit. State
  records which cleanup actions ran.
-/

/-- Exceptions in flight inside main. -/
inductive DBExc where
  | dbError
  | ioError
  | sysExit : Nat → DBExc
  deriving DecidableEq, Repr

/-- Observable side effects of a run of the exporter. -/
structure ExportState where
  cursorClosed : Bool := false
  sessionClosed : Bool := false
  fileWritten : Bool := false
  deriving DecidableEq, Repr

/-- Which failures the environment injects into a run. -/
structure ExportRun where
  queryFails : Bool
  writeFails : Bool
  deriving DecidableEq, Repr

/-- State-plus-exceptions embedding of the Python control flow: the state
survives a raise so that finally blocks can observe and extend it. -/
def PyS (α : Type) := ExportState → Except (DBExc × ExportState) (α × ExportState)

instance : Monad PyS where
  pure a := fun s => .ok (a, s)
  bind x f := fun s =>
    match x s with
    | .ok (a, s') => f a s'
    | .error e => .error e

/-- raise -/
def raiseExc {α : Type} (ex : DBExc) : PyS α := fun s => .error (ex, s)

/-- sys.exit(code) raises SystemExit. -/
def sysExitPy {α : Type} (code : Nat) : PyS α := fun s => .error (.sysExit code, s)

/-- A state update (closing a handle, recording a write). -/
def modifySt (f : ExportState → ExportState) : PyS Unit := fun s => .ok ((), f s)

/-- try/finally: the finalizer runs after the body whether it returned or
raised, and the exception (if any) then continues to propagate. -/
def tryFinallyPy {α : Type} (body : PyS α) (cleanup : PyS Unit) : PyS α := fun s =>
  match body s with
  | .ok (a, s') =>
    match cleanup s' with
    | .ok (_, s'') => .ok (a, s'')
    | .error e => .error e
  | .error (ex, s') =>
    match cleanup s' with
    | .ok (_, s'') => .error (ex, s'')
    | .error e => .error e

/-- try/except E: run the handler only for exceptions matched by the except
clause. -/
def tryCatchPy {α : Type} (body : PyS α) (catches : DBExc → Bool) (handler : PyS α) :
    PyS α := fun s =>
  match body s with
  | .ok r => .ok r
  | .error (ex, s') => if catches ex then handler s' else .error (ex, s')

/-- fetch_connections_and_params: cursor.execute inside
try { ... } except psycopg2.Error { print; sys.exit(1) } finally { cursor.close() }. -/
def fetch_connections_and_params (run : ExportRun) (rows : List DBRow) : PyS (List DBRow) :=
  tryFinallyPy
    (tryCatchPy
      (if run.queryFails then raiseExc .dbError else pure rows)
      (fun ex => decide (ex = DBExc.dbError))
      (sysExitPy 1))
    (modifySt fun s => { s with cursorClosed := true })

/-- The body of the output step of main: open/json.dump inside
try { write } except IOError { print; sys.exit(1) } finally { conn.close() }. -/
def writeOutputStep (run : ExportRun) : PyS Unit :=
  tryFinallyPy
    (tryCatchPy
      (if run.writeFails then raiseExc .ioError
       else modifySt fun s => { s with fileWritten := true })
      (fun ex => decide (ex = DBExc.ioError))
      (sysExitPy 1))
    (modifySt fun s => { s with sessionClosed := true })

/-- main after a successful connect: the fetch call sits outside any
try/finally; only the write step is wrapped by the try whose finally closes
the database connection. -/
def mainExportBody (run : ExportRun) (rows : List DBRow) : PyS Unit := do
  let raw_data ← fetch_connections_and_params run rows
  let _connections_list := build_connection_dict raw_data
  writeOutputStep run

/-- The whole process: exit status 0 when main falls off the end, the carried
code when SystemExit propagates, 1 for any other uncaught exception. -/
def mainExport (run : ExportRun) (rows : List DBRow) : Nat × ExportState :=
  match mainExportBody run rows {} with
  | .ok (_, s) => (0, s)
  | .error (.sysExit c, s) => (c, s)
  | .error (_, s) => (1, s)

/-
  Spec-side definitions used in the claim statements, and concrete inputs.
-/

/-- Null out the text of an element (keeping its presence), used to relate
two documents that differ only in password texts. -/
def eraseText (e : ElemNode) : ElemNode :=
  { e with text := none }

/-- Null out the text of the password-like sub-elements of a Connection
element: Terminal/SafePassword, RDP/SafePassword, VNC/MsSafePassword. -/
def erasePasswords (e : RDMConnection) : RDMConnection :=
  { e with
    terminal := e.terminal.map (fun t => { t with safePassword := t.safePassword.map eraseText }),
    rdp := e.rdp.map (fun r => { r with safePassword := r.safePassword.map eraseText }),
    vnc := e.vnc.map (fun v => { v with msSafePassword := v.msSafePassword.map eraseText }) }

/-- The record's parameters map contains no password key. -/
def noPasswordKey (c : GuacConn) : Prop :=
  ∀ kv ∈ c.parameters, kv.1 ≠ "password"

/-- Invariant carried by the converter loop state: every record appended so
far, and the live guac_connection local, have no password key. -/
def StInv (st : ConvState) : Prop :=
  (∀ c ∈ st.connections, noPasswordKey c) ∧
    (∀ c, st.guac_connection = some c → noPasswordKey c)

/-- The group-path rule claimed for an output record built from an element:
no group field when the element has no Group sub-element, and the
backslash-to-slash rewrite with the ROOT/ prefix when it declares a nonempty
group path. -/
def GroupSpec (e : RDMConnection) (c : GuacConn) : Prop :=
  (e.group = none → c.group = none) ∧
    (∀ el g, e.group = some el → el.text = some g → g ≠ "" →
      c.group = some ("ROOT/" ++ pyReplaceChar g '\\' '/'))

/-- The list of output names of a converter run, or none when the run raised. -/
def namesOf (r : Except PyError (List GuacConn)) : Option (List (Option String)) :=
  match r with
  | .ok cs => some (cs.map GuacConn.name)
  | .error _ => none

/-- A document whose only Connection has the recognized type SSHShell but no
Terminal section: the branch body is skipped and the name-uniqueness block
reads the never-assigned local guac_connection. -/
def c1doc : List RDMConnection :=
  [{ connectionType := some { text := some "SSHShell" } }]

/-- First element of the name-collision scenario: SSHShell named Server1. -/
def c3e1 : RDMConnection :=
  { connectionType := some { text := some "SSHShell" },
    name := some { text := some "Server1" },
    terminal := some {} }

/-- Second element of the name-collision scenario: RDP, also named Server1. -/
def c3e2 : RDMConnection :=
  { connectionType := some { text := some "RDP" },
    name := some { text := some "Server1" },
    rdp := some {} }

/-- A query row whose group-path column (third) and protocol column (fourth)
differ, to separate the two slots of the output record. -/
def c4row : DBRow :=
  ⟨7, "web", "ROOT/Prod", "rdp", none, none⟩

/-- Two documents that differ only in the text of Terminal/SafePassword. -/
def c6d1 : List RDMConnection :=
  [{ connectionType := some { text := some "SSHShell" },
     name := some { text := some "A" },
     terminal := some { host := some { text := some "h1" },
                        safePassword := some { text := some "hunter2" } } }]

/-- Same document as c6d1 with a different password text. -/
def c6d2 : List RDMConnection :=
  [{ connectionType := some { text := some "SSHShell" },
     name := some { text := some "A" },
     terminal := some { host := some { text := some "h1" },
                        safePassword := some { text := some "hunter3" } } }]

/-- Rows of one connection whose only row has a null parameter name (the
outer-join signal of a parameterless connection). -/
def c7rows : List DBRow :=
  [⟨3, "bare", "ROOT/", "vnc", none, none⟩]

/-- The two-parameter-row grouping scenario for connection id 5. -/
def c8rows : List DBRow :=
  [⟨5, "Server5", "ROOT/", "rdp", some "hostname", some "10.0.0.1"⟩,
   ⟨5, "Server5", "ROOT/", "rdp", some "port", some "3389"⟩]

/-- The single folded record expected from c8rows. -/
def c8rec : GuacRecord :=
  { name := "Server5", protocol := "rdp", group := "ROOT/",
    parameters := [("hostname", some "10.0.0.1"), ("port", some "3389")] }

/-- An SSHShell element declaring the group path A backslash B backslash C. -/
def c9e : RDMConnection :=
  { connectionType := some { text := some "SSHShell" },
    name := some { text := some "S1" },
    group := some { text := some "A\\B\\C" },
    terminal := some {} }

/-- The record buildSSH produces from c9e. -/
def c9c : GuacConn :=
  { name := some "S1",
    protocol := "ssh",
    parameters :=
      [("hostname", JValue.s ""), ("port", JValue.n 22), ("username", JValue.s ""),
       ("remote-app", JValue.s ""), ("command", JValue.s "")],
    group := some "ROOT/A/B/C" }

/-- A well-formed document whose SSH element has a HostPort sub-element that
is present but carries no text. -/
def c10doc : List RDMConnection :=
  [{ connectionType := some { text := some "SSHShell" },
     terminal := some { hostPort := some { text := none } } }]

/-
  Lemmas about build_connection_dict (the connections_map fold).
-/

theorem any_key (m : List (Int × GuacRecord)) (i : Int) :
    (m.any fun p => decide (p.1 = i)) = (lookupConn m i).isSome := by
  induction m with
  | nil => rfl
  | cons p m ih =>
    by_cases h : p.1 = i
    · simp [lookupConn, h]
    · simp [lookupConn, h, ih]

theorem lookup_append_single (m : List (Int × GuacRecord)) (k : Int) (rec : GuacRecord)
    (i : Int) :
    lookupConn (m ++ [(k, rec)]) i =
      match lookupConn m i with
      | some r => some r
      | none => if k = i then some rec else none := by
  induction m with
  | nil => simp [lookupConn]
  | cons p m ih =>
    by_cases h : p.1 = i
    · simp [lookupConn, h]
    · simp [lookupConn, h, ih]

theorem lookup_map_updateParams (m : List (Int × GuacRecord)) (cid : Int) (k : String)
    (v : Option String) (i : Int) :
    lookupConn (m.map (updateParams cid k v)) i =
      (lookupConn m i).map (fun rec =>
        if cid = i then { rec with parameters := insertParamValue rec.parameters k v }
        else rec) := by
  induction m with
  | nil => simp [lookupConn]
  | cons p m ih =>
    by_cases h : p.1 = i
    · by_cases h2 : p.1 = cid
      · simp [lookupConn, updateParams, h, h2, h2 ▸ h]
      · have h3 : ¬ cid = i := fun hc => h2 (hc ▸ h)
        have h4 : ¬ i = cid := fun hc => h3 hc.symm
        simp [lookupConn, updateParams, h, h2, h3, h4]
    · by_cases h2 : p.1 = cid
      · have h3 : ¬ cid = i := fun hc => h (h2.trans hc)
        simp [lookupConn, updateParams, h, h2, h3, ih]
      · simp [lookupConn, updateParams, h, h2, ih]

theorem lookup_processRow (m : List (Int × GuacRecord)) (row : DBRow) (i : Int) :
    lookupConn (processRow m row) i =
      if row.connection_id = i then
        some (
          let base := match lookupConn m i with
            | some rec => rec
            | none => { name := row.connection_name, protocol := row.protocol,
                        group := row.group_path, parameters := [] }
          match row.parameter_name with
          | some k => { base with parameters := insertParamValue base.parameters k row.parameter_value }
          | none => base)
      else lookupConn m i := by
  unfold processRow
  by_cases hid : row.connection_id = i
  · subst hid
    cases hL : lookupConn m row.connection_id with
    | some rec =>
      have hA : (m.any fun p => decide (p.1 = row.connection_id)) = true := by
        rw [any_key, hL]; rfl
      cases hp : row.parameter_name with
      | some k => simp [hA, hp, hL, lookup_map_updateParams]
      | none => simp [hA, hp, hL]
    | none =>
      have hA : ¬ ((m.any fun p => decide (p.1 = row.connection_id)) = true) := by
        rw [any_key, hL]; simp
      cases hp : row.parameter_name with
      | some k =>
        simp only [hA, if_false, Bool.false_eq_true, ite_false, hp, List.map_append,
          List.map_cons, List.map_nil]
        rw [lookup_append_single, lookup_map_updateParams]
        simp [hL, updateParams]
      | none => simp [hA, hp, hL, lookup_append_single]
  · cases hLi : lookupConn m i with
    | some rec =>
      cases hp : row.parameter_name with
      | some k =>
        by_cases hA : (m.any fun p => decide (p.1 = row.connection_id)) = true
        · simp [hA, hp, hid, hLi, lookup_map_updateParams]
        · simp only [hA, if_false, Bool.false_eq_true, ite_false, hp, List.map_append,
            List.map_cons, List.map_nil]
          rw [lookup_append_single, lookup_map_updateParams]
          simp [hLi, hid, updateParams]
      | none =>
        by_cases hA : (m.any fun p => decide (p.1 = row.connection_id)) = true
        · simp [hA, hp, hid, hLi]
        · simp [hA, hp, hid, hLi, lookup_append_single]
    | none =>
      cases hp : row.parameter_name with
      | some k =>
        by_cases hA : (m.any fun p => decide (p.1 = row.connection_id)) = true
        · simp [hA, hp, hid, hLi, lookup_map_updateParams]
        · simp only [hA, if_false, Bool.false_eq_true, ite_false, hp, List.map_append,
            List.map_cons, List.map_nil]
          rw [lookup_append_single, lookup_map_updateParams]
          simp [hLi, hid, updateParams]
      | none =>
        by_cases hA : (m.any fun p => decide (p.1 = row.connection_id)) = true
        · simp [hA, hp, hid, hLi]
        · simp [hA, hp, hid, hLi, lookup_append_single]

theorem lookup_mem (m : List (Int × GuacRecord)) (i : Int) (rec : GuacRecord)
    (h : lookupConn m i = some rec) : (i, rec) ∈ m := by
  induction m with
  | nil => simp [lookupConn] at h
  | cons p m ih =>
    by_cases hp : p.1 = i
    · simp [lookupConn, hp] at h
      subst h
      subst hp
      exact List.mem_cons_self _ _
    · simp [lookupConn, hp] at h
      exact List.mem_cons_of_mem _ (ih h)

theorem lookup_fold_preserve (rows : List DBRow) :
    ∀ (m : List (Int × GuacRecord)) (i : Int) (rec : GuacRecord),
      lookupConn m i = some rec →
      ∃ rec', lookupConn (rows.foldl processRow m) i = some rec' ∧
        rec'.name = rec.name ∧ rec'.protocol = rec.protocol ∧ rec'.group = rec.group := by
  induction rows with
  | nil => exact fun m i rec h => ⟨rec, h, rfl, rfl, rfl⟩
  | cons row rows ih =>
    intro m i rec h
    by_cases hid : row.connection_id = i
    · cases hp : row.parameter_name with
      | some k =>
        have h2 : lookupConn (processRow m row) i =
            some { rec with parameters := insertParamValue rec.parameters k row.parameter_value } := by
          rw [lookup_processRow]
          simp [hid, h, hp]
        obtain ⟨rec', h3, h4, h5, h6⟩ := ih (processRow m row) i _ h2
        exact ⟨rec', h3, h4, h5, h6⟩
      | none =>
        have h2 : lookupConn (processRow m row) i = some rec := by
          rw [lookup_processRow]
          simp [hid, h, hp]
        exact ih (processRow m row) i rec h2
    · have h2 : lookupConn (processRow m row) i = some rec := by
        rw [lookup_processRow]
        simp [hid, h]
      exact ih (processRow m row) i rec h2

theorem lookup_fold_first (rows : List DBRow) :
    ∀ (m : List (Int × GuacRecord)) (i : Int) (r : DBRow),
      lookupConn m i = none →
      rows.find? (fun row => decide (row.connection_id = i)) = some r →
      ∃ rec', lookupConn (rows.foldl processRow m) i = some rec' ∧
        rec'.name = r.connection_name ∧ rec'.protocol = r.protocol ∧
        rec'.group = r.group_path := by
  induction rows with
  | nil => intro m i r _ hf; simp [List.find?] at hf
  | cons row rows ih =>
    intro m i r hnone hf
    by_cases hid : row.connection_id = i
    · have hr : r = row := by
        simp [List.find?, hid] at hf
        exact hf.symm
      subst hr
      cases hp : r.parameter_name with
      | some k =>
        have h2 : lookupConn (processRow m r) i =
            some { name := r.connection_name, protocol := r.protocol,
                   group := r.group_path,
                   parameters := insertParamValue [] k r.parameter_value } := by
          rw [lookup_processRow]
          simp [hid, hnone, hp]
        obtain ⟨rec', h3, h4, h5, h6⟩ := lookup_fold_preserve rows (processRow m r) i _ h2
        exact ⟨rec', h3, h4, h5, h6⟩
      | none =>
        have h2 : lookupConn (processRow m r) i =
            some { name := r.connection_name, protocol := r.protocol,
                   group := r.group_path, parameters := [] } := by
          rw [lookup_processRow]
          simp [hid, hnone, hp]
        obtain ⟨rec', h3, h4, h5, h6⟩ := lookup_fold_preserve rows (processRow m r) i _ h2
        exact ⟨rec', h3, h4, h5, h6⟩
    · have hf2 : rows.find? (fun row => decide (row.connection_id = i)) = some r := by
        simp [List.find?, hid] at hf
        exact hf
      have h2 : lookupConn (processRow m row) i = none := by
        rw [lookup_processRow]
        simp [hid, hnone]
      exact ih (processRow m row) i r h2 hf2

theorem keysOf_map_updateParams (m : List (Int × GuacRecord)) (cid : Int) (k : String)
    (v : Option String) :
    keysOf (m.map (updateParams cid k v)) = keysOf m := by
  induction m with
  | nil => rfl
  | cons p m ih =>
    by_cases h : p.1 = cid
    · simp [keysOf, updateParams, h] at ih ⊢
      exact ih
    · simp [keysOf, updateParams, h] at ih ⊢
      exact ih

theorem mem_keysOf (m : List (Int × GuacRecord)) (i : Int) :
    i ∈ keysOf m ↔ (lookupConn m i).isSome = true := by
  induction m with
  | nil => simp [keysOf, lookupConn]
  | cons p m ih =>
    by_cases h : p.1 = i
    · simp [keysOf, lookupConn, h]
    · have h2 : ¬ i = p.1 := fun hc => h hc.symm
      simp [keysOf, lookupConn, h, h2] at ih ⊢
      exact ih

theorem keysOf_processRow (m : List (Int × GuacRecord)) (row : DBRow) :
    keysOf (processRow m row) =
      if (lookupConn m row.connection_id).isSome then keysOf m
      else keysOf m ++ [row.connection_id] := by
  unfold processRow
  by_cases hA : (m.any fun p => decide (p.1 = row.connection_id)) = true
  · have hI : (lookupConn m row.connection_id).isSome = true := by rw [← any_key]; exact hA
    cases hp : row.parameter_name with
    | some k =>
      simp only [hA, ite_true, hp]
      rw [keysOf_map_updateParams]
      simp [hI]
    | none => simp [hA, hp, hI]
  · have hI : ¬ ((lookupConn m row.connection_id).isSome = true) := by rw [← any_key]; exact hA
    cases hp : row.parameter_name with
    | some k =>
      simp only [hA, if_false, Bool.false_eq_true, ite_false, hp]
      rw [keysOf_map_updateParams]
      simp [keysOf, hI]
    | none =>
      simp only [hA, if_false, Bool.false_eq_true, ite_false, hp]
      simp [keysOf, hI]

theorem keysOf_fold_nodup (rows : List DBRow) :
    ∀ (m : List (Int × GuacRecord)), (keysOf m).Nodup →
      (keysOf (rows.foldl processRow m)).Nodup := by
  induction rows with
  | nil => exact fun m h => h
  | cons row rows ih =>
    intro m h
    rw [List.foldl_cons]
    apply ih
    rw [keysOf_processRow]
    cases hI : (lookupConn m row.connection_id).isSome
    · simp only [hI, if_false, Bool.false_eq_true, ite_false]
      have hnm : row.connection_id ∉ keysOf m := by
        rw [mem_keysOf, hI]
        simp
      rw [List.nodup_append]
      refine ⟨h, List.nodup_singleton _, ?_⟩
      intro a ha hb
      rw [List.mem_singleton] at hb
      exact hnm (hb ▸ ha)
    · simpa [hI] using h

theorem mem_keysOf_fold (rows : List DBRow) :
    ∀ (m : List (Int × GuacRecord)) (i : Int),
      i ∈ keysOf (rows.foldl processRow m) ↔
        i ∈ keysOf m ∨ i ∈ rows.map DBRow.connection_id := by
  induction rows with
  | nil => simp
  | cons row rows ih =>
    intro m i
    rw [List.foldl_cons, ih, keysOf_processRow]
    cases hI : (lookupConn m row.connection_id).isSome
    · simp only [hI, if_false, Bool.false_eq_true, ite_false, List.mem_append,
        List.mem_singleton, List.map_cons, List.mem_cons]
      tauto
    · have hmem : row.connection_id ∈ keysOf m := by
        rw [mem_keysOf, hI]
      have himp : i = row.connection_id → i ∈ keysOf m := fun he => he ▸ hmem
      simp only [hI, ite_true, List.map_cons, List.mem_cons]
      tauto

theorem build_length_eq_card (rows : List DBRow) :
    (build_connection_dict rows).length = ((rows.map DBRow.connection_id).toFinset).card := by
  have h1 : (build_connection_dict rows).length = (keysOf (rows.foldl processRow [])).length := by
    simp [build_connection_dict, keysOf]
  have hnd : (keysOf (rows.foldl processRow [])).Nodup :=
    keysOf_fold_nodup rows [] (by simp [keysOf])
  have h2 : (keysOf (rows.foldl processRow [])).toFinset = (rows.map DBRow.connection_id).toFinset := by
    apply Finset.ext
    intro a
    rw [List.mem_toFinset, List.mem_toFinset, mem_keysOf_fold]
    simp [keysOf]
  rw [h1, ← List.toFinset_card_of_nodup hnd, h2]


theorem processRow_nullparam (m : List (Int × GuacRecord)) (row : DBRow) (i : Int)
    (rec' : GuacRecord) (hp : row.parameter_name = none)
    (h : lookupConn (processRow m row) i = some rec') :
    rec'.parameters = [] ∨
      ∃ rec, lookupConn m i = some rec ∧ rec'.parameters = rec.parameters := by
  rw [lookup_processRow] at h
  by_cases hid : row.connection_id = i
  · rw [if_pos hid] at h
    cases hL : lookupConn m i with
    | some rec =>
      right
      refine ⟨rec, rfl, ?_⟩
      simp [hL, hp] at h
      rw [← h]
    | none =>
      left
      simp [hL, hp] at h
      rw [← h]
  · rw [if_neg hid] at h
    exact Or.inr ⟨rec', h, rfl⟩

theorem lookup_fold_nullrows_same (rows : List DBRow) :
    ∀ (m : List (Int × GuacRecord)) (i : Int) (rec : GuacRecord),
      (∀ r ∈ rows, r.connection_id = i → r.parameter_name = none) →
      lookupConn m i = some rec →
      lookupConn (rows.foldl processRow m) i = some rec := by
  induction rows with
  | nil => exact fun m i rec _ h => h
  | cons row rows ih =>
    intro m i rec hnull h
    rw [List.foldl_cons]
    have hnull2 : ∀ r ∈ rows, r.connection_id = i → r.parameter_name = none :=
      fun r hr => hnull r (List.mem_cons_of_mem _ hr)
    by_cases hid : row.connection_id = i
    · have hp : row.parameter_name = none := hnull row (List.mem_cons_self _ _) hid
      have h2 : lookupConn (processRow m row) i = some rec := by
        rw [lookup_processRow]
        simp [hid, h, hp]
      exact ih (processRow m row) i rec hnull2 h2
    · have h2 : lookupConn (processRow m row) i = some rec := by
        rw [lookup_processRow]
        simp [hid, h]
      exact ih (processRow m row) i rec hnull2 h2

theorem lookup_fold_nullrows_empty (rows : List DBRow) :
    ∀ (m : List (Int × GuacRecord)) (i : Int),
      (∀ r ∈ rows, r.connection_id = i → r.parameter_name = none) →
      lookupConn m i = none →
      (∃ r ∈ rows, r.connection_id = i) →
      ∃ rec, lookupConn (rows.foldl processRow m) i = some rec ∧ rec.parameters = [] := by
  induction rows with
  | nil => intro m i _ _ hex; simp at hex
  | cons row rows ih =>
    intro m i hnull hnone hex
    rw [List.foldl_cons]
    have hnull2 : ∀ r ∈ rows, r.connection_id = i → r.parameter_name = none :=
      fun r hr => hnull r (List.mem_cons_of_mem _ hr)
    by_cases hid : row.connection_id = i
    · have hp : row.parameter_name = none := hnull row (List.mem_cons_self _ _) hid
      have h2 : lookupConn (processRow m row) i =
          some { name := row.connection_name, protocol := row.protocol,
                 group := row.group_path, parameters := [] } := by
        rw [lookup_processRow]
        simp [hid, hnone, hp]
      exact ⟨_, lookup_fold_nullrows_same rows (processRow m row) i _ hnull2 h2, rfl⟩
    · have h2 : lookupConn (processRow m row) i = none := by
        rw [lookup_processRow]
        simp [hid, hnone]
      obtain ⟨r, hr, hri⟩ := hex
      rcases List.mem_cons.mp hr with hr0 | hrt
      · exact absurd (hr0 ▸ hri) hid
      · exact ih (processRow m row) i hnull2 h2 ⟨r, hrt, hri⟩


theorem guacGroupField_spec (e : RDMConnection) :
    (e.group = none → guacGroupField e = none) ∧
      (∀ el g, e.group = some el → el.text = some g → g ≠ "" →
        guacGroupField e = some ("ROOT/" ++ pyReplaceChar g '\\' '/')) := by
  constructor
  · intro h
    simp [guacGroupField, rdm_group_path, h, pyTruthy]
  · intro el g hel htext hg
    simp [guacGroupField, rdm_group_path, hel, htext, pyTruthy, hg, pyStr]

theorem buildSSH_group (e : RDMConnection) (t : TerminalSection) (c : GuacConn) (p : String)
    (h : buildSSH e t = .ok (c, p)) : c.group = guacGroupField e := by
  cases hport : extractPort t.hostPort 22 with
  | error err => simp [buildSSH, hport] at h
  | ok port =>
    simp [buildSSH, hport] at h
    rw [← h.1]

theorem buildRDP_group (e : RDMConnection) (r : RDPSection) (c : GuacConn) (p : String)
    (h : buildRDP e r = .ok (c, p)) : c.group = guacGroupField e := by
  cases hport : extractPort r.port 3389 with
  | error err => simp [buildRDP, hport] at h
  | ok port =>
    simp [buildRDP, hport] at h
    rw [← h.1]

theorem buildVNC_group (e : RDMConnection) (v : VNCSection) (c : GuacConn) (p : String)
    (h : buildVNC e v = .ok (c, p)) : c.group = guacGroupField e := by
  cases hport : extractPort v.port 5900 with
  | error err => simp [buildVNC, hport] at h
  | ok port =>
    simp [buildVNC, hport] at h
    rw [← h.1]


theorem buildSSH_erase (e : RDMConnection) (t : TerminalSection) :
    buildSSH (erasePasswords e) { t with safePassword := t.safePassword.map eraseText } =
      buildSSH e t := rfl

theorem buildRDP_erase (e : RDMConnection) (r : RDPSection) :
    buildRDP (erasePasswords e) { r with safePassword := r.safePassword.map eraseText } =
      buildRDP e r := rfl

theorem buildVNC_erase (e : RDMConnection) (v : VNCSection) :
    buildVNC (erasePasswords e) { v with msSafePassword := v.msSafePassword.map eraseText } =
      buildVNC e v := rfl


theorem processConnection_erase (st : ConvState) (e : RDMConnection) :
    processConnection st (erasePasswords e) = processConnection st e := by
  obtain ⟨ct, nm, gp, url, term, rdpS, vncS⟩ := e
  cases ct with
  | none => rfl
  | some cte =>
    by_cases h1 : cte.text = some "SSHShell"
    · cases term with
      | none => simp [processConnection, erasePasswords, h1]
      | some t =>
        simp [processConnection, erasePasswords, h1]
        exact congrArg (fun x => (fun a => finalizeConnection st a.1 a.2) <$> x)
          (buildSSH_erase ⟨some cte, nm, gp, url, some t, rdpS, vncS⟩ t)
    · by_cases h2 : cte.text = some "RDP" ∨ cte.text = some "RDPConfigured"
      · cases rdpS with
        | none => simp [processConnection, erasePasswords, h1, h2]
        | some r =>
          simp [processConnection, erasePasswords, h1, h2]
          exact congrArg (fun x => (fun a => finalizeConnection st a.1 a.2) <$> x)
            (buildRDP_erase ⟨some cte, nm, gp, url, term, some r, vncS⟩ r)
      · by_cases h3 : cte.text = some "VNC"
        · cases vncS with
          | none => simp [processConnection, erasePasswords, h1, h2, h3]
          | some v =>
            simp [processConnection, erasePasswords, h1, h2, h3]
            exact congrArg (fun x => (fun a => finalizeConnection st a.1 a.2) <$> x)
              (buildVNC_erase ⟨some cte, nm, gp, url, term, rdpS, some v⟩ v)
        · simp [processConnection, erasePasswords, h1, h2, h3]


theorem foldlM_erase (doc : List RDMConnection) :
    ∀ st : ConvState,
      (doc.map erasePasswords).foldlM processConnection st = doc.foldlM processConnection st := by
  induction doc with
  | nil => intro st; rfl
  | cons e doc ih =>
    intro st
    simp only [List.map_cons, List.foldlM_cons]
    rw [processConnection_erase]
    cases h : processConnection st e with
    | error err => rfl
    | ok st' => simp [h, ih]

theorem convertConnections_erase (doc : List RDMConnection) :
    convertConnections (doc.map erasePasswords) = convertConnections doc := by
  simp [convertConnections, foldlM_erase]

theorem noPasswordKey_rename (c : GuacConn) (u : Option String)
    (h : noPasswordKey c) : noPasswordKey { c with name := u } :=
  fun kv hkv => h kv hkv

theorem noPw_buildSSH (e : RDMConnection) (t : TerminalSection) (c : GuacConn) (p : String)
    (h : buildSSH e t = .ok (c, p)) : noPasswordKey c := by
  cases hport : extractPort t.hostPort 22 with
  | error err => simp [buildSSH, hport] at h
  | ok port =>
    simp [buildSSH, hport] at h
    intro kv hkv
    rw [← h.1] at hkv
    simp at hkv
    rcases hkv with h1 | h1 | h1 | h1 | h1 <;> subst h1 <;> simp


theorem noPw_buildRDP (e : RDMConnection) (r : RDPSection) (c : GuacConn) (p : String)
    (h : buildRDP e r = .ok (c, p)) : noPasswordKey c := by
  cases hport : extractPort r.port 3389 with
  | error err => simp [buildRDP, hport] at h
  | ok port =>
    simp [buildRDP, hport] at h
    intro kv hkv
    rw [← h.1] at hkv
    repeat split at hkv
    all_goals aesop

theorem noPw_buildVNC (e : RDMConnection) (v : VNCSection) (c : GuacConn) (p : String)
    (h : buildVNC e v = .ok (c, p)) : noPasswordKey c := by
  cases hport : extractPort v.port 5900 with
  | error err => simp [buildVNC, hport] at h
  | ok port =>
    simp [buildVNC, hport] at h
    intro kv hkv
    rw [← h.1] at hkv
    repeat split at hkv
    all_goals aesop



theorem stInv_finalize (st : ConvState) (c : GuacConn) (proto : String)
    (h : StInv st) (hc : noPasswordKey c) : StInv (finalizeConnection st c proto) := by
  constructor
  · intro x hx
    simp only [finalizeConnection, List.mem_append, List.mem_singleton] at hx
    rcases hx with hx | hx
    · exact h.1 x hx
    · subst hx
      exact noPasswordKey_rename c _ hc
  · intro x hx
    simp only [finalizeConnection, Option.some.injEq] at hx
    subst hx
    exact noPasswordKey_rename c _ hc

theorem stInv_stale (st st' : ConvState) (h : StInv st)
    (hs : staleFinalize st = .ok st') : StInv st' := by
  unfold staleFinalize at hs
  cases hg : st.guac_connection with
  | none =>
    rw [hg] at hs
    cases st.protocol <;> simp at hs
  | some obj =>
    cases hp : st.protocol with
    | none =>
      rw [hg, hp] at hs
      simp at hs
    | some proto =>
      rw [hg, hp] at hs
      have hobj : noPasswordKey obj := h.2 obj hg
      obtain rfl : _ = st' := by simpa using hs
      constructor
      · intro x hx
        simp [List.mem_append, List.mem_replicate] at hx
        rcases hx with hx | ⟨-, hx⟩ | hx
        · exact h.1 x (List.take_subset _ _ hx)
        · subst hx
          exact noPasswordKey_rename obj _ hobj
        · subst hx
          exact noPasswordKey_rename obj _ hobj
      · intro x hx
        simp at hx
        subst hx
        exact noPasswordKey_rename obj _ hobj

theorem stInv_step (st : ConvState) (e : RDMConnection) (st' : ConvState)
    (h : StInv st) (hp : processConnection st e = .ok st') : StInv st' := by
  obtain ⟨ct, nm, gp, url, term, rdpS, vncS⟩ := e
  cases ct with
  | none =>
    obtain rfl : st = st' := by simpa [processConnection] using hp
    exact h
  | some cte =>
    by_cases h1 : cte.text = some "SSHShell"
    · cases term with
      | none =>
        exact stInv_stale st st' h (by simpa [processConnection, h1] using hp)
      | some t =>
        cases hb : buildSSH ⟨some cte, nm, gp, url, some t, rdpS, vncS⟩ t with
        | error err =>
          exfalso
          simp [processConnection, h1, hb] at hp
        | ok res =>
          obtain ⟨c, proto⟩ := res
          obtain rfl : finalizeConnection st c proto = st' := by
            simpa [processConnection, h1, hb] using hp
          exact stInv_finalize st c proto h (noPw_buildSSH _ t c proto hb)
    · by_cases h2 : cte.text = some "RDP" ∨ cte.text = some "RDPConfigured"
      · cases rdpS with
        | none =>
          exact stInv_stale st st' h (by simpa [processConnection, h1, h2] using hp)
        | some r =>
          cases hb : buildRDP ⟨some cte, nm, gp, url, term, some r, vncS⟩ r with
          | error err =>
            exfalso
            simp [processConnection, h1, h2, hb] at hp
          | ok res =>
            obtain ⟨c, proto⟩ := res
            obtain rfl : finalizeConnection st c proto = st' := by
              simpa [processConnection, h1, h2, hb] using hp
            exact stInv_finalize st c proto h (noPw_buildRDP _ r c proto hb)
      · by_cases h3 : cte.text = some "VNC"
        · cases vncS with
          | none =>
            exact stInv_stale st st' h (by simpa [processConnection, h1, h2, h3] using hp)
          | some v =>
            cases hb : buildVNC ⟨some cte, nm, gp, url, term, rdpS, some v⟩ v with
            | error err =>
              exfalso
              simp [processConnection, h1, h2, h3, hb] at hp
            | ok res =>
              obtain ⟨c, proto⟩ := res
              obtain rfl : finalizeConnection st c proto = st' := by
                simpa [processConnection, h1, h2, h3, hb] using hp
              exact stInv_finalize st c proto h (noPw_buildVNC _ v c proto hb)
        · obtain rfl : st = st' := by simpa [processConnection, h1, h2, h3] using hp
          exact h

theorem stInv_fold (doc : List RDMConnection) :
    ∀ (st st' : ConvState), StInv st →
      doc.foldlM processConnection st = .ok st' → StInv st' := by
  induction doc with
  | nil =>
    intro st st' h hf
    obtain rfl : st = st' := by simpa [List.foldlM, pure, Except.pure] using hf
    exact h
  | cons e doc ih =>
    intro st st' h hf
    rw [List.foldlM_cons] at hf
    cases hstep : processConnection st e with
    | error err =>
      rw [hstep] at hf
      exact Except.noConfusion hf
    | ok st1 =>
      rw [hstep] at hf
      exact ih st1 st' (stInv_step st e st1 h hstep) hf


theorem fileNotFound_ne_parseError (p e : String) :
    fileNotFoundMessage p ≠ parseErrorMessage e := by
  intro h
  have h2 := congrArg (fun s => s.data.take 7) h
  simp only [fileNotFoundMessage, parseErrorMessage, String.data_append] at h2
  rw [List.take_append_of_le_length (by decide),
    List.take_append_of_le_length (by decide)] at h2
  exact absurd h2 (by decide)

theorem groupSpec_of_group_eq (e : RDMConnection) (c : GuacConn)
    (hg : c.group = guacGroupField e) : GroupSpec e c :=
  ⟨fun hnone => by rw [hg]; exact (guacGroupField_spec e).1 hnone,
   fun el g hel ht hne => by rw [hg]; exact (guacGroupField_spec e).2 el g hel ht hne⟩

/-- C1: the claim says every Connection element with a recognized
ConnectionType contributes exactly one output record even when its
type-specific section element is missing. The code instead falls through to
the name-uniqueness block with the local guac_connection unbound: on a
document whose first recognized element is an SSHShell connection without a
Terminal section, the converter raises an uncaught NameError and produces no
output list at all. -/
theorem c1_missing_section_nameError :
    convertConnections c1doc = .error .nameError ∧
    convert_rdm_to_guac_json true "export.xml" (.parsed c1doc) = .error .nameError :=
  ⟨rfl, rfl⟩

/-- C2 counterexample: the claim says the process exits non-zero when the
input path does not exist or the input is not well-formed XML. In fact the
__main__ block prints the returned error string and falls off the end of the
script: on a missing file, and likewise on a parse failure, the exit status
is 0, refuting the claim at these concrete runs. -/
theorem c2_counterexample :
    rdmMain 2 "input.xml" false (.parsed []) =
      .ok (0, .printed (.errMsg (fileNotFoundMessage "input.xml"))) ∧
    rdmMain 2 "input.xml" true (.parseFailed "not well-formed") =
      .ok (0, .printed (.errMsg (parseErrorMessage "not well-formed"))) :=
  ⟨rfl, rfl⟩

/-- C2 amended: missing file and parse failure produce distinct error
message strings, both surfaced as a returned string from
convert_rdm_to_guac_json (an ok value, not a raised error) and printed with
exit status 0; only the usage error (argument count different from 2) exits
with a non-zero status. -/
theorem c2_exit_status_and_messages :
    (∀ p e, fileNotFoundMessage p ≠ parseErrorMessage e) ∧
    (∀ path parse, rdmMain 2 path false parse =
      .ok (0, .printed (.errMsg (fileNotFoundMessage path)))) ∧
    (∀ path e, rdmMain 2 path true (.parseFailed e) =
      .ok (0, .printed (.errMsg (parseErrorMessage e)))) ∧
    (∀ path e, convert_rdm_to_guac_json true path (.parseFailed e) =
      .ok (.errMsg (parseErrorMessage e))) ∧
    (∀ n path pe parse, n ≠ 2 → rdmMain n path pe parse = .ok (1, .usageMsg)) := by
  refine ⟨fileNotFound_ne_parseError, fun path parse => rfl, fun path e => rfl,
    fun path e => rfl, fun n path pe parse hn => ?_⟩
  simp [rdmMain, hn]

theorem c2_witness :
    fileNotFoundMessage "a.xml" ≠ parseErrorMessage "boom" ∧
    rdmMain 3 "a.xml" true (.parsed []) = .ok (1, .usageMsg) :=
  ⟨c2_exit_status_and_messages.1 "a.xml" "boom",
   c2_exit_status_and_messages.2.2.2.2 3 "a.xml" true (.parsed []) (by decide)⟩

/-- C3 counterexample: on the two-element document with both names Server1
and the second element of connection type RDP, the output names are not
Server1 and Server1 (rdp): the collision suffix comes from the converter's
protocol local, which is the uppercase label RDP. -/
theorem c3_counterexample :
    namesOf (convertConnections [c3e1, c3e2]) =
      some [some "Server1", some "Server1 (RDP)"] ∧
    namesOf (convertConnections [c3e1, c3e2]) ≠
      some [some "Server1", some "Server1 (rdp)"] := by
  constructor
  · decide
  · decide

/-- C3 amended: on the two-element document with both names Server1 and the
second element of connection type RDP, the converter outputs the names
Server1 and Server1 (RDP) in that order - the first collision appends the
parenthesized uppercase protocol label and no numeric suffix. -/
theorem c3_collision_names :
    namesOf (convertConnections [c3e1, c3e2]) =
      some [some "Server1", some "Server1 (RDP)"] := by
  decide

/-- C4 counterexample: the claim says the record's protocol slot is
populated from the group-path column (the third selected column). On a row
whose third column is ROOT/Prod and whose fourth (protocol) column is rdp,
the created record's protocol is rdp, not the group-path value: the protocol
slot is fed by the fourth column, refuting the claim. -/
theorem c4_counterexample :
    (build_connection_dict [c4row]).map GuacRecord.protocol = [c4row.protocol] ∧
    (build_connection_dict [c4row]).map GuacRecord.group = [c4row.group_path] ∧
    ¬ ((build_connection_dict [c4row]).map GuacRecord.protocol = [c4row.group_path]) := by
  decide

/-- C4 amended: for every row sequence, the first row of each distinct
connection id creates that connection's record with its name from the
connection-name column, its protocol slot populated from the protocol column
(the fourth selected column), and its group reference populated from the
group-path column (the third selected column). -/
theorem c4_first_row_fields :
    ∀ (rows : List DBRow) (i : Int) (r : DBRow),
      rows.find? (fun row => decide (row.connection_id = i)) = some r →
      ∃ rec, rec ∈ build_connection_dict rows ∧ rec.name = r.connection_name ∧
        rec.protocol = r.protocol ∧ rec.group = r.group_path := by
  intro rows i r hf
  obtain ⟨rec', h1, h2, h3, h4⟩ := lookup_fold_first rows [] i r rfl hf
  exact ⟨rec', List.mem_map.mpr ⟨(i, rec'), lookup_mem _ i rec' h1, rfl⟩, h2, h3, h4⟩

theorem c4_witness :
    ∃ rec, rec ∈ build_connection_dict [c4row] ∧ rec.name = c4row.connection_name ∧
      rec.protocol = c4row.protocol ∧ rec.group = c4row.group_path :=
  c4_first_row_fields [c4row] 7 c4row (by decide)

/-- C5: the claim says the database session is closed on every exit path.
Evaluating the modelled main shows the session is closed on the success path
and on the write-failure path, but on a query-execution failure the process
exits with status 1 from inside fetch_connections_and_params (whose finally
closes only the cursor) without ever reaching the finally that closes the
connection: sessionClosed is false on that path. -/
theorem c5_session_close_paths :
    (mainExport ⟨true, false⟩ []).2.sessionClosed = false ∧
    (mainExport ⟨true, false⟩ []).1 = 1 ∧
    (mainExport ⟨true, false⟩ []).2.cursorClosed = true ∧
    (mainExport ⟨false, false⟩ []).2.sessionClosed = true ∧
    (mainExport ⟨false, true⟩ []).2.sessionClosed = true ∧
    (mainExport ⟨false, true⟩ []).1 = 1 := by
  decide

/-- C6: no record emitted by the converter carries a password key in its
parameters map, and the emitted result is identical for any two input
documents that differ only in the text of the password-like sub-elements
(SafePassword / MsSafePassword): credential values never influence the
output. -/
theorem c6_no_password_and_noninterference :
    (∀ doc cs, convertConnections doc = .ok cs → ∀ c ∈ cs, noPasswordKey c) ∧
    (∀ path d₁ d₂, d₁.map erasePasswords = d₂.map erasePasswords →
      convert_rdm_to_guac_json true path (.parsed d₁) =
        convert_rdm_to_guac_json true path (.parsed d₂)) := by
  constructor
  · intro doc cs hok
    unfold convertConnections at hok
    cases hf : doc.foldlM processConnection ({} : ConvState) with
    | error err =>
      rw [hf] at hok
      exact Except.noConfusion hok
    | ok st' =>
      rw [hf] at hok
      obtain rfl : st'.connections = cs := by
        simpa [Bind.bind, Except.bind, pure, Except.pure] using hok
      have hinit : StInv {} :=
        ⟨fun c hc => absurd hc (List.not_mem_nil c), fun c hc => Option.noConfusion hc⟩
      exact fun c hc => (stInv_fold doc {} st' hinit hf).1 c hc
  · intro path d₁ d₂ hde
    have h1 : convertConnections d₁ = convertConnections d₂ := by
      calc convertConnections d₁
          = convertConnections (d₁.map erasePasswords) := (convertConnections_erase d₁).symm
        _ = convertConnections (d₂.map erasePasswords) := by rw [hde]
        _ = convertConnections d₂ := convertConnections_erase d₂
    exact congrArg (fun x => x >>= fun connections =>
      if connections.isEmpty then pure ConvReturn.noSupportedMsg
      else pure (ConvReturn.jsonDump connections)) h1

theorem c6_witness :
    convert_rdm_to_guac_json true "in.xml" (.parsed c6d1) =
      convert_rdm_to_guac_json true "in.xml" (.parsed c6d2) :=
  c6_no_password_and_noninterference.2 "in.xml" c6d1 c6d2 (by decide)

/-- C7: a row whose parameter-name column is null never adds an entry to
the record's parameter map (it either leaves an existing record's parameters
unchanged or creates the record with an empty map), and a connection whose
rows all have null parameter names yields a record with an empty parameters
map in the output. -/
theorem c7_null_param_name :
    (∀ m row i rec', row.parameter_name = none →
      lookupConn (processRow m row) i = some rec' →
      rec'.parameters = [] ∨
        ∃ rec, lookupConn m i = some rec ∧ rec'.parameters = rec.parameters) ∧
    (∀ rows i, (∀ r ∈ rows, r.connection_id = i → r.parameter_name = none) →
      (∃ r ∈ rows, r.connection_id = i) →
      ∃ rec, lookupConn (rows.foldl processRow []) i = some rec ∧
        rec.parameters = [] ∧ rec ∈ build_connection_dict rows) := by
  constructor
  · exact fun m row i rec' hp h => processRow_nullparam m row i rec' hp h
  · intro rows i hnull hex
    obtain ⟨rec, h1, h2⟩ := lookup_fold_nullrows_empty rows [] i hnull rfl hex
    exact ⟨rec, h1, h2, List.mem_map.mpr ⟨(i, rec), lookup_mem _ i rec h1, rfl⟩⟩

theorem c7_witness :
    ∃ rec, lookupConn (c7rows.foldl processRow []) 3 = some rec ∧
      rec.parameters = [] ∧ rec ∈ build_connection_dict c7rows :=
  c7_null_param_name.2 c7rows 3 (by decide) (by decide)

/-- C8: the normalizer folds all rows sharing a connection id into exactly
one record - the output length equals the number of distinct connection ids
for every row sequence - and on the concrete scenario of two parameter rows
for id 5 the single record's map holds both parameter pairs. -/
theorem c8_grouping :
    (∀ rows : List DBRow, (build_connection_dict rows).length =
      ((rows.map DBRow.connection_id).toFinset).card) ∧
    build_connection_dict c8rows = [c8rec] :=
  ⟨build_length_eq_card, by decide⟩

/-- C9: for every recognized connection element, the record built from it
carries no group field when the element declares no Group sub-element, and
when the element declares a nonempty group path the group field is the path
with backslashes replaced by forward slashes and prefixed with ROOT/. -/
theorem c9_group_path :
    (∀ e t c p, buildSSH e t = .ok (c, p) → GroupSpec e c) ∧
    (∀ e r c p, buildRDP e r = .ok (c, p) → GroupSpec e c) ∧
    (∀ e v c p, buildVNC e v = .ok (c, p) → GroupSpec e c) :=
  ⟨fun e t c p h => groupSpec_of_group_eq e c (buildSSH_group e t c p h),
   fun e r c p h => groupSpec_of_group_eq e c (buildRDP_group e r c p h),
   fun e v c p h => groupSpec_of_group_eq e c (buildVNC_group e v c p h)⟩

theorem c9_witness : c9c.group = some "ROOT/A/B/C" := by
  have h := (c9_group_path.1 c9e {} c9c "SSH" rfl).2
    { text := some "A\\B\\C" } "A\\B\\C" rfl rfl (by decide)
  rw [h]
  decide

/-- C10: on a well-formed document whose SSH element has a HostPort
sub-element that is present but carries no text, the converter raises an
uncaught AttributeError (None.isdigit()) instead of applying the port
default; port extraction succeeds exactly when the port sub-element is
absent or carries text. -/
theorem c10_port_crash :
    convert_rdm_to_guac_json true "export.xml" (.parsed c10doc) = .error .attributeError ∧
    (∀ pe d, (∃ n, extractPort pe d = .ok n) ↔
      pe = none ∨ ∃ el t, pe = some el ∧ el.text = some t) := by
  constructor
  · rfl
  · intro pe d
    cases pe with
    | none => simp [extractPort]
    | some el =>
      cases h : el.text with
      | none => simp [extractPort, h]
      | some t => simp [extractPort, h]


end GuacExport
